import Mathlib

/-!
Shallow embedding of the job-pipeline orchestrator of the GoWebServer
repository (NeRF-or-Nothing), covering:

* `internal/models/queue/QueueListManager.go` — the persisted queue-position
  store (`GetQueuePosition`, `GetQueueSize`, `AppendToQueue`,
  `DeleteFromQueue`) over the fixed queue names
  `["queue_list", "sfm_list", "nerf_list"]`;
* the AMPQ service (`PublishSFMJob`, `processSFMJob`, `PublishNERFJob`,
  `processNERFJob`) — stage publishers and consumers of the two-stage
  pipeline;
* `ClientService.GetSceneProgress` — the progress aggregator.

The MongoDB store is modelled as explicit state (`DB`): a partial map from
queue name to its ordered list of job ids, plus a partial map from scene id
to the scene document.  Mongo's `FindOne` on an absent document yields
`ErrNoDocuments`, modelled as `QErr.errNoDocuments`.  Network and
filesystem side effects (broker publish, artifact download, mkdir) always
succeed in the model and are recorded in an event trace; `ObjectID` values
are modelled as `Nat`.  Go `float64` matrix entries are carried opaquely as
IEEE-754 bit patterns (`Nat`); the code never computes with them.
-/

/-- Opaque carrier for a Go `float64` value (IEEE-754 bit pattern); the
orchestrator only moves these values around, never computes with them. -/
abbrev F64 := Nat

/-- Model of `primitive.ObjectID`. -/
abbrev OID := Nat

/-- `ObjectID.Hex()`: an injective rendering of the id as a string. -/
def hexOf (id : OID) : String := toString id

/-- The scan behind `baseName`: keep the characters seen since the most
recent slash. -/
def baseNameGo : List Char → List Char → List Char
  | [], acc => acc.reverse
  | c :: rest, acc =>
    if c = '/' then baseNameGo rest [] else baseNameGo rest (c :: acc)

/-- `filepath.Base` for the URL/path shapes the pipeline produces
(the component after the last slash). -/
def baseName (s : String) : String :=
  String.mk (baseNameGo s.toList [])

/-- `filepath.Join` on already-clean components. -/
def joinPath (parts : List String) : String :=
  String.intercalate "/" parts

/- ---------------------------------------------------------------------
Scene data model (`internal/models/scene/Scene.go`).
Go pointer fields (`*T` with `omitempty`) are modelled as `Option`;
Go `map[int]string` is modelled as an association list with
last-write-wins insertion (`mapSet`), `none` standing for a nil map.
--------------------------------------------------------------------- -/

/-- Go `map[int]string` model: association list, unique keys. -/
abbrev IntStrMap := List (Int × String)

/-- Go map assignment `m[k] = v`: replace if present, else add. -/
def mapSet (m : IntStrMap) (k : Int) (v : String) : IntStrMap :=
  if m.any (fun p => p.1 = k) then
    m.map (fun p => if p.1 = k then (k, v) else p)
  else
    m ++ [(k, v)]

/-- Go map lookup `m[k]`. -/
def mapGet (m : IntStrMap) (k : Int) : Option String :=
  (m.find? (fun p => p.1 = k)).map (·.2)

/-- `scene.Video`. -/
structure Video where
  filePath : String
  width : Int
  height : Int
  fps : Int
  duration : Int
  frameCount : Int
  deriving DecidableEq, Repr

/-- `scene.Frame`: one frame of the SfM output. -/
structure Frame where
  filePath : String
  extrinsicMatrix : List (List F64)
  deriving DecidableEq, Repr

/-- `scene.Sfm`: the structure-from-motion payload. -/
structure Sfm where
  intrinsicMatrix : List (List F64)
  frames : List Frame
  whiteBackground : Bool
  deriving DecidableEq, Repr

/-- `scene.NerfTrainingConfig`. -/
structure NerfTrainingConfig where
  trainingMode : String
  outputTypes : List String
  saveIterations : List Int
  totalIterations : Int
  deriving DecidableEq, Repr

/-- `scene.TrainingConfig`; `SfmTrainingConfig` has no fields. -/
structure TrainingConfig where
  sfmTrainingConfig : Option Unit
  nerfTrainingConfig : Option NerfTrainingConfig
  deriving DecidableEq, Repr

/-- `scene.Nerf`: the per-output-type checkpoint→file-path maps
(`none` = Go nil map) and the worker status flag. -/
structure Nerf where
  modelFilePathsMap : Option IntStrMap := none
  splatCloudFilePathsMap : Option IntStrMap := none
  pointCloudFilePathsMap : Option IntStrMap := none
  videoFilePathsMap : Option IntStrMap := none
  flag : Int := 0
  deriving DecidableEq, Repr

/-- `scene.Scene`: the per-job document. -/
structure Scene where
  video : Option Video := none
  sfm : Option Sfm := none
  config : Option TrainingConfig := none
  nerf : Option Nerf := none
  id : OID := 0
  status : Int := 0
  name : String := ""
  deriving DecidableEq, Repr

/- ---------------------------------------------------------------------
Persistent store state.
--------------------------------------------------------------------- -/

/-- The `nerfdb` database: the `queues` collection (name → ordered id
list; `none` = document never created) and the `scenes` collection. -/
structure DB where
  queues : String → Option (List OID)
  scenes : OID → Option Scene

/-- Upsert of one queue document (`setQueue`'s `UpdateOne … $set … upsert`). -/
def DB.setQ (db : DB) (queueID : String) (l : List OID) : DB :=
  { db with queues := fun q => if q = queueID then some l else db.queues q }

/-- Upsert of one scene document. -/
def DB.setS (db : DB) (id : OID) (sc : Scene) : DB :=
  { db with scenes := fun i => if i = id then some sc else db.scenes i }

/- ---------------------------------------------------------------------
QueueListManager (`internal/models/queue/QueueListManager.go`).
--------------------------------------------------------------------- -/

/-- The fixed valid queue names installed by `NewQueueListManager`:
overall queue first, then the two stage queues. -/
def queueNames : List String := ["queue_list", "sfm_list", "nerf_list"]

/-- The typed errors of the queue package, plus `mongo.ErrNoDocuments`
(surfaced unwrapped by `FindOne(...).Decode` on an absent document). -/
inductive QErr where
  | invalidQueueID
  | queueAlreadyExists
  | idAlreadyInQueue
  | idNotFoundInQueue
  | multipleIDsInQueue
  | invalidOpOnEmptyQueue
  | errNoDocuments
  deriving DecidableEq, Repr

/-- The position-scan loop of `GetQueuePosition`: walks the list keeping
the `-1`-initialised `position` sentinel, failing on a second match. -/
def findPosition (itemID : OID) : List OID → Int → Nat → Except QErr Int
  | [], pos, _ => .ok pos
  | id :: rest, pos, i =>
    if id = itemID then
      if pos ≠ -1 then .error .multipleIDsInQueue
      else findPosition itemID rest (Int.ofNat i) (i + 1)
    else findPosition itemID rest pos (i + 1)

/-- `QueueListManager.GetQueuePosition`: returns (zero-based position,
queue length). -/
def GetQueuePosition (db : DB) (queueID : String) (itemID : OID) :
    Except QErr (Int × Int) :=
  if ¬ queueNames.contains queueID then .error .invalidQueueID
  else
    match db.queues queueID with
    | none => .error .errNoDocuments
    | some l =>
      match findPosition itemID l (-1) 0 with
      | .error e => .error e
      | .ok pos =>
        if pos = -1 then .error .idNotFoundInQueue
        else .ok (pos, Int.ofNat l.length)

/-- `QueueListManager.GetQueueSize`. -/
def GetQueueSize (db : DB) (queueID : String) : Except QErr Int :=
  if ¬ queueNames.contains queueID then .error .invalidQueueID
  else
    match db.queues queueID with
    | none => .error .errNoDocuments
    | some l => .ok (Int.ofNat l.length)

/-- `QueueListManager.AppendToQueue`: creates the document on
`mongo.ErrNoDocuments`, rejects an id already present, else appends at
the tail and upserts. -/
def AppendToQueue (db : DB) (queueID : String) (itemID : OID) :
    Except QErr DB :=
  if ¬ queueNames.contains queueID then .error .invalidQueueID
  else
    match db.queues queueID with
    | none => .ok (db.setQ queueID [itemID])
    | some l =>
      if l.contains itemID then .error .idAlreadyInQueue
      else .ok (db.setQ queueID (l ++ [itemID]))

/-- `slices.IndexFunc(queue, id == itemID)`: index of the first match. -/
def indexFunc (itemID : OID) : List OID → Option Nat
  | [] => none
  | id :: rest =>
    if id = itemID then some 0 else (indexFunc itemID rest).map (· + 1)

/-- `QueueListManager.DeleteFromQueue`: invalid-name, absent-document,
empty-queue and not-found checks, then `slices.Delete(queue, i, i+1)` at
the first matching index. -/
def DeleteFromQueue (db : DB) (queueID : String) (itemID : OID) :
    Except QErr DB :=
  if ¬ queueNames.contains queueID then .error .invalidQueueID
  else
    match db.queues queueID with
    | none => .error .errNoDocuments
    | some l =>
      if l.length = 0 then .error .invalidOpOnEmptyQueue
      else
        match indexFunc itemID l with
        | none => .error .idNotFoundInQueue
        | some index => .ok (db.setQ queueID (l.take index ++ l.drop (index + 1)))

/- ---------------------------------------------------------------------
SceneManager store operations (`SceneManager.go`), as used by the
pipeline: `GetScene`, `SetScene`, `SetNerf`.
--------------------------------------------------------------------- -/

/-- `SceneManager.GetScene`: `FindOne` + decode. -/
def GetScene (db : DB) (id : OID) : Except QErr Scene :=
  match db.scenes id with
  | none => .error .errNoDocuments
  | some sc => .ok sc

/-- `SceneManager.SetScene`: `$set` of the whole document, upsert. -/
def SetScene (db : DB) (id : OID) (sc : Scene) : DB :=
  db.setS id sc

/-- `SceneManager.SetNerf`: `$set {"nerf": nerf}`, upsert — replaces the
`nerf` field of the document wholesale. -/
def SetNerf (db : DB) (id : OID) (n : Nerf) : DB :=
  match db.scenes id with
  | some sc => db.setS id { sc with nerf := some n }
  | none => db.setS id { id := id, nerf := some n }

/- ---------------------------------------------------------------------
AMPQ service (stage publishers and consumers).
Observable side effects are recorded in a trace; broker publishes and
artifact downloads always succeed in the model.
--------------------------------------------------------------------- -/

/-- One observable side effect of publish/consume processing. -/
inductive Event where
  /-- a message was published to the named broker queue -/
  | published (queue : String)
  /-- `AppendToQueue` succeeded (queue document mutated) -/
  | appended (queue : String) (id : OID)
  /-- `DeleteFromQueue` succeeded (queue document mutated) -/
  | deletedQ (queue : String) (id : OID)
  /-- `SetScene` wrote the scene document -/
  | setScene (id : OID)
  /-- `SetNerf` wrote the scene's `nerf` field -/
  | setNerf (id : OID)
  /-- a remote artifact was fetched at this URL -/
  | downloaded (url : String)
  deriving DecidableEq, Repr

/-- Error outcomes of the publish/consume functions: the wrapped queue
and store errors they return, the domain validation failures of
`processNERFJob`, and a Go nil-pointer dereference panic. -/
inductive PErr where
  | failedAppendSfmList (e : QErr)
  | failedAppendQueueList (e : QErr)
  | failedAppendNerfList (e : QErr)
  | failedGetScene (e : QErr)
  | failedPopNerfList (e : QErr)
  | failedPopQueueList (e : QErr)
  | outputTypeUnwanted (t : String)
  | iterationUnwanted (i : Int)
  | nilPanic
  deriving DecidableEq, Repr

/-- Result of one publish/consume call: `err = none` on success (the
delivery is acked), the resulting store state, and the effect trace. -/
structure POut where
  err : Option PErr
  db : DB
  trace : List Event

/-- `AMPQService.baseURL ++ "worker-data/" ++ filePath` (`toAPIUrl`). -/
def toAPIUrl (filePath : String) : String :=
  "http://web-server:5000/" ++ "worker-data/" ++ filePath

/-- `AMPQService.PublishSFMJob`: publish `{id, file_path}` to `sfm-in`,
then append the id to `sfm_list`, then to `queue_list`; either append
failure is returned after the message has already been sent. -/
def PublishSFMJob (db : DB) (sc : Scene) : POut :=
  let tr := [Event.published "sfm-in"]
  match AppendToQueue db "sfm_list" sc.id with
  | .error e => ⟨some (.failedAppendSfmList e), db, tr⟩
  | .ok db1 =>
    let tr := tr ++ [Event.appended "sfm_list" sc.id]
    match AppendToQueue db1 "queue_list" sc.id with
    | .error e => ⟨some (.failedAppendQueueList e), db1, tr⟩
    | .ok db2 => ⟨none, db2, tr ++ [Event.appended "queue_list" sc.id]⟩

/-- `AMPQService.PublishNERFJob`: build the stage-2 job from the scene's
video, SfM and training-config fields (dereferencing those pointers),
publish to `nerf-in`, then append the id to `nerf_list`. -/
def PublishNERFJob (db : DB) (sc : Scene) : POut :=
  match sc.video, sc.sfm, sc.config with
  | some _, some _, some cfg =>
    match cfg.nerfTrainingConfig with
    | none => ⟨some .nilPanic, db, []⟩
    | some _ =>
      let tr := [Event.published "nerf-in"]
      match AppendToQueue db "nerf_list" sc.id with
      | .error e => ⟨some (.failedAppendNerfList e), db, tr⟩
      | .ok db1 => ⟨none, db1, tr ++ [Event.appended "nerf_list" sc.id]⟩
  | _, _, _ => ⟨some .nilPanic, db, []⟩

/-- The decoded `sfm-out` message (`SfmWorkerData`): job id, reported
video dimensions, the structure payload and the worker status flag. -/
structure SfmWorkerData where
  sceneID : OID
  vidWidth : Int
  vidHeight : Int
  sfm : Sfm
  flag : Int
  deriving DecidableEq, Repr

/-- The tail of `processSFMJob` after the scene record has been saved:
remove the id from `sfm_list` (failure only logged, processing
continues either way), then publish the stage-2 job; the call's success
is the publish's success. -/
def sfmFinish (db1 : DB) (sceneID : OID) (sc' : Scene) (tr1 : List Event) :
    POut :=
  match DeleteFromQueue db1 "sfm_list" sceneID with
  | .error _ =>
    let pub := PublishNERFJob db1 sc'
    ⟨pub.err, pub.db, tr1 ++ pub.trace⟩
  | .ok db2 =>
    let pub := PublishNERFJob db2 sc'
    ⟨pub.err, pub.db,
      (tr1 ++ [Event.deletedQ "sfm_list" sceneID]) ++ pub.trace⟩

/-- `AMPQService.processSFMJob` on a decoded message: download every
frame and rewrite its file path to the locally-served URL, load the
scene, attach the structure payload and dimensions, save it, remove the
id from `sfm_list` (failure only logged), then publish the stage-2 job;
success only if that publish succeeds. -/
def processSFMJob (db : DB) (data : SfmWorkerData) : POut :=
  let saveDir := joinPath ["data", "sfm", hexOf data.sceneID]
  let dls := data.sfm.frames.map (fun f => Event.downloaded f.filePath)
  let newFrames := data.sfm.frames.map (fun f =>
    { f with filePath := toAPIUrl (joinPath [saveDir, baseName f.filePath]) })
  match GetScene db data.sceneID with
  | .error e => ⟨some (.failedGetScene e), db, dls⟩
  | .ok sc =>
    match sc.video with
    | none => ⟨some .nilPanic, db, dls⟩
    | some vid =>
      let sc' : Scene :=
        { sc with
          sfm := some { data.sfm with frames := newFrames }
          video := some { vid with width := data.vidWidth, height := data.vidHeight } }
      sfmFinish (SetScene db data.sceneID sc') data.sceneID sc'
        (dls ++ [Event.setScene data.sceneID])

/-- The decoded `nerf-out` message (`NerfWorkerData`): job id and, per
output type, a checkpoint-iteration → remote-URL map. -/
structure NerfWorkerData where
  sceneID : OID
  filePaths : List (String × List (Int × String))
  deriving DecidableEq, Repr

/-- The per-output-type `switch` of `processNERFJob`: record the local
file path under the matching map (allocating it if nil); an unmatched
type is only logged (orphaned file). -/
def nerfSwitch (n : Nerf) (outputType : String) (iteration : Int)
    (filePath : String) : Nerf :=
  match outputType with
  | "splat_cloud" =>
    { n with splatCloudFilePathsMap := some (mapSet (n.splatCloudFilePathsMap.getD []) iteration filePath) }
  | "point_cloud" =>
    { n with pointCloudFilePathsMap := some (mapSet (n.pointCloudFilePathsMap.getD []) iteration filePath) }
  | "video" =>
    { n with videoFilePathsMap := some (mapSet (n.videoFilePathsMap.getD []) iteration filePath) }
  | "model" =>
    { n with modelFilePathsMap := some (mapSet (n.modelFilePathsMap.getD []) iteration filePath) }
  | _ => n

/-- The inner iteration loop of `processNERFJob` for one output type:
validate each iteration against `saveIterations`, download the artifact,
and record its local path. -/
def processIters (saveIterations : List Int) (typeSaveDir : String)
    (outputType : String) :
    List (Int × String) → Nerf → List Event × Except PErr Nerf
  | [], n => ([], .ok n)
  | (iteration, url) :: rest, n =>
    if ¬ saveIterations.contains iteration then
      ([], .error (.iterationUnwanted iteration))
    else
      let filePath :=
        joinPath [typeSaveDir, "iteration_" ++ toString iteration, baseName url]
      let (evs, r) :=
        processIters saveIterations typeSaveDir outputType rest
          (nerfSwitch n outputType iteration filePath)
      (Event.downloaded url :: evs, r)

/-- The outer output-type loop of `processNERFJob`: validate each output
type against `outputTypes`, then run the iteration loop. -/
def processEntries (outputTypes : List String) (saveIterations : List Int)
    (saveDir : String) :
    List (String × List (Int × String)) → Nerf → List Event × Except PErr Nerf
  | [], n => ([], .ok n)
  | (outputType, iters) :: rest, n =>
    if ¬ outputTypes.contains outputType then
      ([], .error (.outputTypeUnwanted outputType))
    else
      match processIters saveIterations (joinPath [saveDir, outputType])
          outputType iters n with
      | (evs, .error e) => (evs, .error e)
      | (evs, .ok n') =>
        let (evs', r) := processEntries outputTypes saveIterations saveDir rest n'
        (evs ++ evs', r)

/-- The tail of `processNERFJob` after the entry loop succeeded: save
the accumulated `Nerf` with `SetNerf`, then remove the id from
`nerf_list` and `queue_list`; either removal failure is returned. -/
def nerfFinish (db : DB) (sceneID : OID) (nerf : Nerf) (evs : List Event) :
    POut :=
  let db1 := SetNerf db sceneID nerf
  let tr1 := evs ++ [Event.setNerf sceneID]
  match DeleteFromQueue db1 "nerf_list" sceneID with
  | .error e => ⟨some (.failedPopNerfList e), db1, tr1⟩
  | .ok db2 =>
    let tr2 := tr1 ++ [Event.deletedQ "nerf_list" sceneID]
    match DeleteFromQueue db2 "queue_list" sceneID with
    | .error e => ⟨some (.failedPopQueueList e), db2, tr2⟩
    | .ok db3 => ⟨none, db3, tr2 ++ [Event.deletedQ "queue_list" sceneID]⟩

/-- `AMPQService.processNERFJob` on a decoded message: load the scene,
read the allow-lists from its training config, process every
(output type, iteration, URL) entry into a fresh `Nerf{}`, save it with
`SetNerf`, then remove the id from `nerf_list` and `queue_list`
(both failures returned). -/
def processNERFJob (db : DB) (data : NerfWorkerData) : POut :=
  match GetScene db data.sceneID with
  | .error e => ⟨some (.failedGetScene e), db, []⟩
  | .ok sc =>
    match sc.config with
    | none => ⟨some .nilPanic, db, []⟩
    | some cfg =>
      match cfg.nerfTrainingConfig with
      | none => ⟨some .nilPanic, db, []⟩
      | some ncfg =>
        let saveDir := joinPath ["data", "nerf", hexOf data.sceneID]
        match processEntries ncfg.outputTypes ncfg.saveIterations saveDir
            data.filePaths {} with
        | (evs, .error e) => ⟨some e, db, evs⟩
        | (evs, .ok nerf) => nerfFinish db data.sceneID nerf evs

/- ---------------------------------------------------------------------
Progress aggregator (`ClientService.GetSceneProgress`).
The loop over `GetQueueNames()` is unrolled over the fixed name list:
index 0 is the overall queue, indices 1-2 the stage queues in pipeline
order.  NOTE the source assigns `size, position, err :=
GetQueuePosition(...)` for the stage queues although `GetQueuePosition`
returns `(position, size)`, so the reported `stage_position` is the
stage queue's length and `stage_size` the zero-based index; and when the
job is in no stage queue, `stageIdx` remains `-1` and
`queueNames[stageIdx]` is an out-of-range index — a runtime panic. -/

/-- Observable outcome of `GetSceneProgress`. -/
inductive ProgressResult where
  /-- user-access verification failed -/
  | accessErr
  /-- a queue-store error was returned to the caller -/
  | err (e : QErr)
  /-- the Go code evaluates `queueNames[-1]`: index out of range panic -/
  | panicked
  /-- `{"processing": false}` -/
  | notProcessing
  /-- the full response map, fields in source order -/
  | processing (overallPosition overallSize : Int) (stage : String)
      (stagePosition stageSize : Int)
  deriving DecidableEq, Repr

/-- `ClientService.GetSceneProgress` (the user-access check is modelled
by the `hasAccess` flag). -/
def GetSceneProgress (db : DB) (hasAccess : Bool) (sceneID : OID) :
    ProgressResult :=
  if ¬ hasAccess then .accessErr
  else
    match GetQueuePosition db "queue_list" sceneID with
    | .error .idNotFoundInQueue => .notProcessing
    | .error e => .err e
    | .ok (overallPosition, overallSize) =>
      match GetQueuePosition db "sfm_list" sceneID with
      | .error .idNotFoundInQueue =>
        match GetQueuePosition db "nerf_list" sceneID with
        | .error .idNotFoundInQueue => .panicked
        | .error e => .err e
        | .ok (p, s) =>
          .processing overallPosition overallSize "nerf_list" s p
      | .error e => .err e
      | .ok (p, s) =>
        .processing overallPosition overallSize "sfm_list" s p

/- ---------------------------------------------------------------------
Concrete store states and messages used by counterexamples and witnesses.
--------------------------------------------------------------------- -/

/-- A store in which no queue document has been created yet. -/
def dbNoDocs : DB := ⟨fun _ => none, fun _ => none⟩

/-- Job 9 behind job 7 in both the overall and the stage-1 queue. -/
def dbC1 : DB :=
  { queues := fun q =>
      if q = "queue_list" then some [7, 9]
      else if q = "sfm_list" then some [7, 9]
      else if q = "nerf_list" then some []
      else none,
    scenes := fun _ => none }

/-- Job 5 in the overall queue, both stage queue documents empty:
the transient window between the stage-1 removal and stage-2 append. -/
def dbC2 : DB :=
  { queues := fun q =>
      if q = "queue_list" then some [5]
      else if q = "sfm_list" then some []
      else if q = "nerf_list" then some []
      else none,
    scenes := fun _ => none }

/-- A gaussian training config requesting video and splat-cloud outputs
at checkpoint iterations 1 and 2. -/
def ncfgW : NerfTrainingConfig := ⟨"gaussian", ["video", "splat_cloud"], [1, 2], 300⟩

/-- Scene 2: configured, awaiting stage-2 output. -/
def scW2 : Scene :=
  { video := some ⟨"v.mp4", 0, 0, 30, 10, 300⟩,
    config := some ⟨none, some ncfgW⟩, id := 2, name := "s" }

/-- Scene 2 queued in stage 2 and the overall queue. -/
def dbW2 : DB :=
  { queues := fun q =>
      if q = "queue_list" then some [2]
      else if q = "sfm_list" then some []
      else if q = "nerf_list" then some [2]
      else none,
    scenes := fun i => if i = 2 then some scW2 else none }

/-- First stage-2 result for job 2: video checkpoint 1. -/
def msgIter1 : NerfWorkerData := ⟨2, [("video", [(1, "http://w/a.mp4")])]⟩

/-- Second stage-2 result for job 2: video checkpoint 2 only. -/
def msgIter2 : NerfWorkerData := ⟨2, [("video", [(2, "http://w/b.mp4")])]⟩

/-- A stage-2 result carrying an output type the config did not request. -/
def msgBadType : NerfWorkerData := ⟨2, [("model", [(1, "http://w/c.bin")])]⟩

/-- A stage-2 result carrying an unrequested checkpoint iteration. -/
def msgBadIter : NerfWorkerData := ⟨2, [("video", [(5, "http://w/c.bin")])]⟩

/-- The store after job 2's first stage-2 message was processed and the
job was (externally) re-queued for another checkpoint delivery. -/
def dbW2b : DB :=
  { queues := fun q =>
      if q = "queue_list" then some [2]
      else if q = "nerf_list" then some [2]
      else (processNERFJob dbW2 msgIter1).db.queues q,
    scenes := (processNERFJob dbW2 msgIter1).db.scenes }

/-- A two-frame structure payload. -/
def sfmW : Sfm :=
  ⟨[[1, 0, 0], [0, 1, 0], [0, 0, 1]],
   [⟨"http://worker/f1.png", [[1]]⟩, ⟨"http://worker/f2.png", [[1]]⟩], false⟩

/-- A decoded stage-1 result for job 3 with worker flag 7. -/
def dataW3 : SfmWorkerData := ⟨3, 640, 480, sfmW, 7⟩

/-- Scene 3: uploaded and configured, awaiting stage-1 output. -/
def scW3 : Scene :=
  { video := some ⟨"v.mp4", 0, 0, 30, 10, 300⟩,
    config := some ⟨none, some ncfgW⟩, id := 3 }

/-- Scene 3 queued in stage 1 and the overall queue. -/
def dbW3 : DB :=
  { queues := fun q =>
      if q = "queue_list" then some [3]
      else if q = "sfm_list" then some [3]
      else none,
    scenes := fun i => if i = 3 then some scW3 else none }

/- ---------------------------------------------------------------------
Store-update helper lemmas.
--------------------------------------------------------------------- -/

theorem setQ_same (db : DB) (q : String) (l : List OID) :
    (db.setQ q l).queues q = some l := by
  simp [DB.setQ]

theorem setQ_other (db : DB) (q q' : String) (l : List OID) (h : q' ≠ q) :
    (db.setQ q l).queues q' = db.queues q' := by
  simp [DB.setQ, h]

theorem setQ_scenes (db : DB) (q : String) (l : List OID) :
    (db.setQ q l).scenes = db.scenes := rfl

theorem setS_same (db : DB) (id : OID) (sc : Scene) :
    (db.setS id sc).scenes id = some sc := by
  simp [DB.setS]

theorem setS_queues (db : DB) (id : OID) (sc : Scene) :
    (db.setS id sc).queues = db.queues := rfl

/- ---------------------------------------------------------------------
Queue-operation helper lemmas.
--------------------------------------------------------------------- -/

theorem indexFunc_eq_none (id : OID) (l : List OID) (h : id ∉ l) :
    indexFunc id l = none := by
  induction l with
  | nil => rfl
  | cons a rest ih =>
    have ha : a ≠ id := fun hc => h (hc ▸ List.mem_cons_self a rest)
    have hr : id ∉ rest := fun hc => h (List.mem_cons_of_mem a hc)
    simp [indexFunc, ha, ih hr]

theorem indexFunc_mem (id : OID) (l : List OID) (h : id ∈ l) :
    ∃ i l1 l2, indexFunc id l = some i ∧ l = l1 ++ id :: l2 ∧
      l1.length = i ∧ id ∉ l1 ∧ l.take i ++ l.drop (i + 1) = l1 ++ l2 := by
  induction l with
  | nil => cases h
  | cons a rest ih =>
    by_cases ha : a = id
    · subst ha
      exact ⟨0, [], rest, by simp [indexFunc], rfl, rfl, by simp, by simp⟩
    · have h' : id ∈ rest := by
        rcases List.mem_cons.mp h with h1 | h1
        · exact absurd h1.symm ha
        · exact h1
      obtain ⟨i, l1, l2, h1, h2, h3, h4, h5⟩ := ih h'
      refine ⟨i + 1, a :: l1, l2, ?_, ?_, ?_, ?_, ?_⟩
      · simp [indexFunc, ha, h1]
      · simp [h2]
      · simp [h3]
      · intro hc
        rcases List.mem_cons.mp hc with h1 | h1
        · exact ha h1.symm
        · exact h4 h1
      · simpa using h5

theorem AppendToQueue_mem (db : DB) (q : String) (id : OID) (l : List OID)
    (hq : queueNames.contains q = true) (hl : db.queues q = some l)
    (hm : id ∈ l) :
    AppendToQueue db q id = .error .idAlreadyInQueue := by
  have hq' : q ∈ queueNames := by simpa using hq
  simp [AppendToQueue, hq', hl, hm]

theorem AppendToQueue_not_mem (db : DB) (q : String) (id : OID) (l : List OID)
    (hq : queueNames.contains q = true) (hl : db.queues q = some l)
    (hm : id ∉ l) :
    AppendToQueue db q id = .ok (db.setQ q (l ++ [id])) := by
  have hq' : q ∈ queueNames := by simpa using hq
  simp [AppendToQueue, hq', hl, hm]

theorem AppendToQueue_absent (db : DB) (q : String) (id : OID)
    (hq : queueNames.contains q = true) (hl : db.queues q = none) :
    AppendToQueue db q id = .ok (db.setQ q [id]) := by
  have hq' : q ∈ queueNames := by simpa using hq
  simp [AppendToQueue, hq', hl]

theorem DeleteFromQueue_mem (db : DB) (q : String) (id : OID) (l : List OID)
    (hq : queueNames.contains q = true) (hl : db.queues q = some l)
    (hm : id ∈ l) :
    ∃ l1 l2, l = l1 ++ id :: l2 ∧ id ∉ l1 ∧
      DeleteFromQueue db q id = .ok (db.setQ q (l1 ++ l2)) := by
  obtain ⟨i, l1, l2, h1, h2, h3, h4, h5⟩ := indexFunc_mem id l hm
  have hne : l.length ≠ 0 := by
    intro hc
    rw [List.length_eq_zero] at hc
    subst hc; cases hm
  have hq' : q ∈ queueNames := by simpa using hq
  refine ⟨l1, l2, h2, h4, ?_⟩
  simp [DeleteFromQueue, hq', hl, hne, h1, h5]

theorem DeleteFromQueue_not_mem (db : DB) (q : String) (id : OID) (l : List OID)
    (hq : queueNames.contains q = true) (hl : db.queues q = some l)
    (hne : l ≠ []) (hm : id ∉ l) :
    DeleteFromQueue db q id = .error .idNotFoundInQueue := by
  have hq' : q ∈ queueNames := by simpa using hq
  have hlen : l.length ≠ 0 := fun hc => hne (List.length_eq_zero.mp hc)
  simp [DeleteFromQueue, hq', hl, hlen, indexFunc_eq_none id l hm]

theorem count_one_not_mem (id : OID) (l1 l2 : List OID)
    (h : (l1 ++ id :: l2).count id = 1) : id ∉ l1 ++ l2 := by
  rw [List.count_append, List.count_cons_self] at h
  have h1 : l1.count id = 0 := by omega
  have h2 : l2.count id = 0 := by omega
  rw [List.mem_append]
  rintro (hc | hc)
  · exact absurd h1 (by simpa using (List.count_pos_iff.mpr hc).ne')
  · exact absurd h2 (by simpa using (List.count_pos_iff.mpr hc).ne')

/- ---------------------------------------------------------------------
Claim theorems.
--------------------------------------------------------------------- -/

/-- C1: refuted (code bug).  With job 9 at zero-based index 1 of the
two-element stage-1 queue, `GetSceneProgress` reports
`stage_position = 2` (the stage queue's length) and `stage_size = 1`
(the index): the source assigns `size, position, err :=
GetQueuePosition(...)` although `GetQueuePosition` returns
`(position, size)`, so the two stage fields are swapped and the claimed
`stage_position < stage_size` fails. -/
theorem GetSceneProgress_stage_fields_swapped :
    GetSceneProgress dbC1 true 9 = .processing 1 2 "sfm_list" 2 1 ∧
    GetQueuePosition dbC1 "sfm_list" 9 = .ok (1, 2) ∧
    ¬ ((2 : Int) < 1) :=
  ⟨rfl, rfl, by decide⟩

/-- C2: refuted (code bug).  With job 5 in the overall queue and both
stage queue documents existing but empty, the stage scan leaves
`stageIdx = -1` and the response construction evaluates
`queueNames[stageIdx]`, an out-of-range slice index: `GetSceneProgress`
panics instead of returning a processing-with-overall-fields-only
response. -/
theorem GetSceneProgress_no_stage_panics :
    GetSceneProgress dbC2 true 5 = .panicked := rfl

/-- C6 counterexample: `sfm_list` is a valid queue name, yet with no
queue document created `GetQueueSize` returns `mongo.ErrNoDocuments`
rather than zero with no error. -/
theorem GetQueueSize_absent_doc_errors :
    queueNames.contains "sfm_list" = true ∧
    GetQueueSize dbNoDocs "sfm_list" = .error .errNoDocuments ∧
    GetQueueSize dbNoDocs "sfm_list" ≠ .ok 0 := by
  refine ⟨rfl, rfl, fun h => ?_⟩
  rw [show GetQueueSize dbNoDocs "sfm_list" = .error .errNoDocuments from rfl] at h
  exact Except.noConfusion h

/-- C6 amended: for a valid queue name, `GetQueueSize` returns zero
with no error only when the queue document exists with an empty list;
when the document has not been created it propagates the store's
no-document error. -/
theorem GetQueueSize_zero_only_for_existing_empty (db : DB) (q : String)
    (hq : queueNames.contains q = true) :
    (db.queues q = none → GetQueueSize db q = .error .errNoDocuments) ∧
    (db.queues q = some [] → GetQueueSize db q = .ok 0) := by
  have hq' : q ∈ queueNames := by simpa using hq
  constructor
  · intro h; simp [GetQueueSize, hq', h]
  · intro h; simp [GetQueueSize, hq', h]

/-- C6 amended, witnessed at concrete stores: the never-created
`queue_list` document yields the no-document error, and an existing
empty `nerf_list` document yields size zero. -/
theorem GetQueueSize_zero_only_for_existing_empty_witness :
    queueNames.contains "queue_list" = true ∧
    dbNoDocs.queues "queue_list" = none ∧
    GetQueueSize dbNoDocs "queue_list" = .error .errNoDocuments ∧
    dbC2.queues "nerf_list" = some [] ∧
    GetQueueSize dbC2 "nerf_list" = .ok 0 :=
  ⟨rfl, rfl,
   (GetQueueSize_zero_only_for_existing_empty dbNoDocs "queue_list" rfl).1 rfl,
   rfl,
   (GetQueueSize_zero_only_for_existing_empty dbC2 "nerf_list" rfl).2 rfl⟩

/-- C7: confirmed.  For a valid queue name, `AppendToQueue` fails with
the already-present error when the id is in the queue's list (returning
before any write, so the list is untouched); for an id not present it
appends at the tail; and for a not-yet-created queue document it creates
the document containing exactly that id.  In both success cases no
other queue is modified. -/
theorem AppendToQueue_contract (db : DB) (q : String) (id : OID)
    (hq : queueNames.contains q = true) :
    (∀ l, db.queues q = some l → id ∈ l →
      AppendToQueue db q id = .error .idAlreadyInQueue) ∧
    (∀ l, db.queues q = some l → id ∉ l →
      ∃ db', AppendToQueue db q id = .ok db' ∧
        db'.queues q = some (l ++ [id]) ∧
        (∀ q', q' ≠ q → db'.queues q' = db.queues q')) ∧
    (db.queues q = none →
      ∃ db', AppendToQueue db q id = .ok db' ∧
        db'.queues q = some [id] ∧
        (∀ q', q' ≠ q → db'.queues q' = db.queues q')) := by
  refine ⟨fun l hl hm => AppendToQueue_mem db q id l hq hl hm,
          fun l hl hm => ⟨db.setQ q (l ++ [id]),
            AppendToQueue_not_mem db q id l hq hl hm,
            setQ_same db q (l ++ [id]),
            fun q' h => setQ_other db q q' (l ++ [id]) h⟩,
          fun hl => ⟨db.setQ q [id],
            AppendToQueue_absent db q id hq hl,
            setQ_same db q [id],
            fun q' h => setQ_other db q q' [id] h⟩⟩

/-- C7 witnessed at a concrete store: appending the already-present id 9
to `sfm_list = [7, 9]` fails; appending the fresh id 8 extends the list
to `[7, 9, 8]`; appending id 4 to the never-created `queue_list`
document creates `[4]`. -/
theorem AppendToQueue_contract_witness :
    queueNames.contains "sfm_list" = true ∧
    dbC1.queues "sfm_list" = some [7, 9] ∧
    AppendToQueue dbC1 "sfm_list" 9 = .error .idAlreadyInQueue ∧
    (∃ db', AppendToQueue dbC1 "sfm_list" 8 = .ok db' ∧
      db'.queues "sfm_list" = some [7, 9, 8] ∧
      (∀ q', q' ≠ "sfm_list" → db'.queues q' = dbC1.queues q')) ∧
    (∃ db', AppendToQueue dbNoDocs "queue_list" 4 = .ok db' ∧
      db'.queues "queue_list" = some [4] ∧
      (∀ q', q' ≠ "queue_list" → db'.queues q' = dbNoDocs.queues q')) :=
  ⟨rfl, rfl,
   (AppendToQueue_contract dbC1 "sfm_list" 9 rfl).1 [7, 9] rfl (by decide),
   (AppendToQueue_contract dbC1 "sfm_list" 8 rfl).2.1 [7, 9] rfl (by decide),
   (AppendToQueue_contract dbNoDocs "queue_list" 4 rfl).2.2 rfl⟩

/-- C8: confirmed.  `DeleteFromQueue` fails with the invalid-queue error
for a name outside the valid set; with the empty-queue error for an
existing empty queue document; with the not-found error for a non-empty
queue not containing the id; and otherwise removes exactly the single
matching entry, preserving the relative order of all remaining entries
(the result is the prefix before the unique match concatenated with the
suffix after it, other queues untouched). -/
theorem DeleteFromQueue_contract (db : DB) (q : String) (id : OID) :
    (¬ queueNames.contains q = true →
      DeleteFromQueue db q id = .error .invalidQueueID) ∧
    (queueNames.contains q = true → db.queues q = some [] →
      DeleteFromQueue db q id = .error .invalidOpOnEmptyQueue) ∧
    (∀ l, queueNames.contains q = true → db.queues q = some l → l ≠ [] →
      id ∉ l → DeleteFromQueue db q id = .error .idNotFoundInQueue) ∧
    (∀ l, queueNames.contains q = true → db.queues q = some l → id ∈ l →
      ∃ db' l1 l2, DeleteFromQueue db q id = .ok db' ∧
        l = l1 ++ id :: l2 ∧ id ∉ l1 ∧
        db'.queues q = some (l1 ++ l2) ∧
        (l.count id = 1 → id ∉ l1 ++ l2) ∧
        (∀ q', q' ≠ q → db'.queues q' = db.queues q')) := by
  refine ⟨?_, ?_, ?_, ?_⟩
  · intro h
    simp only [DeleteFromQueue]
    rw [if_pos h]
  · intro hq hl
    have hq' : q ∈ queueNames := by simpa using hq
    simp [DeleteFromQueue, hq', hl]
  · intro l hq hl hne hm
    exact DeleteFromQueue_not_mem db q id l hq hl hne hm
  · intro l hq hl hm
    obtain ⟨l1, l2, heq, hnm, hdel⟩ := DeleteFromQueue_mem db q id l hq hl hm
    refine ⟨db.setQ q (l1 ++ l2), l1, l2, hdel, heq, hnm,
      setQ_same db q (l1 ++ l2), ?_,
      fun q' h => setQ_other db q q' (l1 ++ l2) h⟩
    intro hcount
    exact count_one_not_mem id l1 l2 (heq ▸ hcount)

/-- C8 witnessed at concrete stores: an unrecognized name, an existing
empty `nerf_list`, a miss on `sfm_list = [7, 9]`, and the removal of 7
from `[7, 9]` leaving `[9]` in order. -/
theorem DeleteFromQueue_contract_witness :
    DeleteFromQueue dbC1 "bogus" 1 = .error .invalidQueueID ∧
    DeleteFromQueue dbC1 "nerf_list" 1 = .error .invalidOpOnEmptyQueue ∧
    DeleteFromQueue dbC1 "sfm_list" 8 = .error .idNotFoundInQueue ∧
    (∃ db' l1 l2, DeleteFromQueue dbC1 "sfm_list" 7 = .ok db' ∧
      ([7, 9] : List OID) = l1 ++ 7 :: l2 ∧ (7 : OID) ∉ l1 ∧
      db'.queues "sfm_list" = some (l1 ++ l2) ∧
      (([7, 9] : List OID).count 7 = 1 → (7 : OID) ∉ l1 ++ l2) ∧
      (∀ q', q' ≠ "sfm_list" → db'.queues q' = dbC1.queues q')) :=
  ⟨(DeleteFromQueue_contract dbC1 "bogus" 1).1 (by decide),
   (DeleteFromQueue_contract dbC1 "nerf_list" 1).2.1 rfl rfl,
   (DeleteFromQueue_contract dbC1 "sfm_list" 8).2.2.1 [7, 9] rfl rfl (by decide) (by decide),
   (DeleteFromQueue_contract dbC1 "sfm_list" 7).2.2.2 [7, 9] rfl rfl (by decide)⟩

/-- C9: confirmed.  In `PublishSFMJob`, whenever the overall-queue
append appears in the effect trace, a stage-1-queue append for the same
job appears strictly earlier: the id is appended to `sfm_list` before
`queue_list`, never the other way round. -/
theorem PublishSFMJob_append_order (db : DB) (sc : Scene) (i : Nat)
    (hi : (PublishSFMJob db sc).trace.get? i
        = some (.appended "queue_list" sc.id)) :
    ∃ j, j < i ∧ (PublishSFMJob db sc).trace.get? j
        = some (.appended "sfm_list" sc.id) := by
  cases h1 : AppendToQueue db "sfm_list" sc.id with
  | error e =>
    simp only [PublishSFMJob, h1] at hi
    rcases i with _ | n
    · simp at hi
    · simp at hi
  | ok db1 =>
    cases h2 : AppendToQueue db1 "queue_list" sc.id with
    | error e =>
      simp only [PublishSFMJob, h1, h2] at hi
      rcases i with _ | _ | n <;> simp at hi
    | ok db2 =>
      simp only [PublishSFMJob, h1, h2] at hi ⊢
      rcases i with _ | _ | _ | n
      · simp at hi
      · simp at hi
      · exact ⟨1, by omega, by simp⟩
      · simp at hi

/-- C9 witnessed at a concrete publish: starting from an empty store the
trace is publish, append-to-`sfm_list`, append-to-`queue_list`, and the
theorem produces the earlier stage append for the overall append at
index 2. -/
theorem PublishSFMJob_append_order_witness :
    (PublishSFMJob dbNoDocs scW3).trace.get? 2
        = some (.appended "queue_list" scW3.id) ∧
    ∃ j, j < 2 ∧ (PublishSFMJob dbNoDocs scW3).trace.get? j
        = some (.appended "sfm_list" scW3.id) :=
  ⟨rfl, PublishSFMJob_append_order dbNoDocs scW3 2 rfl⟩

/- ---------------------------------------------------------------------
Publish/consume helper lemmas.
--------------------------------------------------------------------- -/

theorem PublishNERFJob_success (db : DB) (sc : Scene)
    (hsucc : (PublishNERFJob db sc).err = none) :
    (∃ ln, (PublishNERFJob db sc).db.queues "nerf_list" = some ln ∧
      sc.id ∈ ln) ∧
    (∀ q', q' ≠ "nerf_list" →
      (PublishNERFJob db sc).db.queues q' = db.queues q') ∧
    (PublishNERFJob db sc).db.scenes = db.scenes ∧
    Event.published "nerf-in" ∈ (PublishNERFJob db sc).trace := by
  cases hv : sc.video with
  | none => simp [PublishNERFJob, hv] at hsucc
  | some vid =>
  cases hs : sc.sfm with
  | none => simp [PublishNERFJob, hv, hs] at hsucc
  | some sfm =>
  cases hc : sc.config with
  | none => simp [PublishNERFJob, hv, hs, hc] at hsucc
  | some cfg =>
  cases hn : cfg.nerfTrainingConfig with
  | none => simp [PublishNERFJob, hv, hs, hc, hn] at hsucc
  | some ncfg =>
  cases hnl : db.queues "nerf_list" with
  | none =>
    have happ := AppendToQueue_absent db "nerf_list" sc.id rfl hnl
    simp only [PublishNERFJob, hv, hs, hc, hn, happ] at hsucc ⊢
    exact ⟨⟨[sc.id], setQ_same db "nerf_list" [sc.id], by simp⟩,
      fun q' h => setQ_other db "nerf_list" q' [sc.id] h, rfl, by simp⟩
  | some ln =>
    by_cases hm : sc.id ∈ ln
    · have happ := AppendToQueue_mem db "nerf_list" sc.id ln rfl hnl hm
      simp [PublishNERFJob, hv, hs, hc, hn, happ] at hsucc
    · have happ := AppendToQueue_not_mem db "nerf_list" sc.id ln rfl hnl hm
      simp only [PublishNERFJob, hv, hs, hc, hn, happ] at hsucc ⊢
      exact ⟨⟨ln ++ [sc.id], setQ_same db "nerf_list" (ln ++ [sc.id]), by simp⟩,
        fun q' h => setQ_other db "nerf_list" q' (ln ++ [sc.id]) h, rfl, by simp⟩

theorem sfmFinish_success (db1 : DB) (id : OID) (sc' : Scene)
    (tr1 : List Event) (l : List OID)
    (hsucc : (sfmFinish db1 id sc' tr1).err = none)
    (hq : db1.queues "sfm_list" = some l)
    (hmem : id ∈ l) (hcount : l.count id = 1) (hid : sc'.id = id) :
    (∃ l', (sfmFinish db1 id sc' tr1).db.queues "sfm_list" = some l' ∧
      id ∉ l') ∧
    (∃ ln, (sfmFinish db1 id sc' tr1).db.queues "nerf_list" = some ln ∧
      id ∈ ln) ∧
    (sfmFinish db1 id sc' tr1).db.scenes = db1.scenes := by
  obtain ⟨l1, l2, heq, hnm, hdel⟩ :=
    DeleteFromQueue_mem db1 "sfm_list" id l rfl hq hmem
  have hout : id ∉ l1 ++ l2 := count_one_not_mem id l1 l2 (heq ▸ hcount)
  simp only [sfmFinish, hdel] at hsucc ⊢
  obtain ⟨⟨ln, hln, hmemln⟩, hother, hscenes, _⟩ :=
    PublishNERFJob_success (db1.setQ "sfm_list" (l1 ++ l2)) sc' hsucc
  refine ⟨⟨l1 ++ l2, ?_, hout⟩, ⟨ln, hln, hid ▸ hmemln⟩, ?_⟩
  · rw [hother "sfm_list" (by decide)]
    exact setQ_same db1 "sfm_list" (l1 ++ l2)
  · rw [hscenes]
    exact setQ_scenes db1 "sfm_list" (l1 ++ l2)

theorem sfmFinish_trace (db1 : DB) (id : OID) (sc' : Scene)
    (tr1 : List Event)
    (hsucc : (sfmFinish db1 id sc' tr1).err = none) :
    (∀ ev ∈ tr1, ev ∈ (sfmFinish db1 id sc' tr1).trace) ∧
    Event.published "nerf-in" ∈ (sfmFinish db1 id sc' tr1).trace ∧
    (∀ l, db1.queues "sfm_list" = some l → id ∈ l →
      Event.deletedQ "sfm_list" id ∈ (sfmFinish db1 id sc' tr1).trace) := by
  cases hdel : DeleteFromQueue db1 "sfm_list" id with
  | error e =>
    simp only [sfmFinish, hdel] at hsucc ⊢
    obtain ⟨_, _, _, hpub⟩ := PublishNERFJob_success db1 sc' hsucc
    refine ⟨fun ev hev => List.mem_append_left _ hev,
      List.mem_append_right _ hpub, ?_⟩
    intro l hq hmem
    obtain ⟨l1, l2, _, _, hdel'⟩ :=
      DeleteFromQueue_mem db1 "sfm_list" id l rfl hq hmem
    rw [hdel] at hdel'
    exact absurd hdel' (by simp)
  | ok db2 =>
    simp only [sfmFinish, hdel] at hsucc ⊢
    obtain ⟨_, _, _, hpub⟩ := PublishNERFJob_success db2 sc' hsucc
    exact ⟨fun ev hev =>
        List.mem_append_left _ (List.mem_append_left _ hev),
      List.mem_append_right _ hpub,
      fun l _ _ =>
        List.mem_append_left _ (List.mem_append_right _ (by simp))⟩

theorem nerfFinish_scenes (db : DB) (id : OID) (n : Nerf) (evs : List Event) :
    (nerfFinish db id n evs).db.scenes = (SetNerf db id n).scenes := by
  cases hdel : DeleteFromQueue (SetNerf db id n) "nerf_list" id with
  | error e => simp [nerfFinish, hdel]
  | ok db2 =>
    have h2 : db2.scenes = (SetNerf db id n).scenes := by
      revert hdel
      unfold DeleteFromQueue
      split
      · intro h; cases h
      · split
        · intro h; cases h
        · split
          · intro h; cases h
          · split
            · intro h; cases h
            · intro h
              cases h
              rfl
    cases hdel2 : DeleteFromQueue db2 "queue_list" id with
    | error e => simp [nerfFinish, hdel, hdel2, h2]
    | ok db3 =>
      have h3 : db3.scenes = db2.scenes := by
        revert hdel2
        unfold DeleteFromQueue
        split
        · intro h; cases h
        · split
          · intro h; cases h
          · split
            · intro h; cases h
            · split
              · intro h; cases h
              · intro h
                cases h
                rfl
      simp [nerfFinish, hdel, hdel2, h3, h2]

/-- C3: confirmed.  For a store whose scene documents carry their own
key as `id` (the Mongo `_id` invariant), if a decoded stage-1 result
message is processed to successful completion (`processSFMJob` returns
nil) for a job that is in the stage-1 queue (uniquely, per the append
contract), then afterwards the job id is absent from the `sfm_list`
queue, present in the `nerf_list` queue, and the job record's `Sfm`
field is non-nil. -/
theorem processSFMJob_stage_transition (db : DB) (data : SfmWorkerData)
    (l : List OID)
    (hwf : ∀ i s, db.scenes i = some s → Scene.id s = i)
    (hq : db.queues "sfm_list" = some l)
    (hmem : data.sceneID ∈ l)
    (hcount : l.count data.sceneID = 1)
    (hsucc : (processSFMJob db data).err = none) :
    (∃ l', (processSFMJob db data).db.queues "sfm_list" = some l' ∧
      data.sceneID ∉ l') ∧
    (∃ ln, (processSFMJob db data).db.queues "nerf_list" = some ln ∧
      data.sceneID ∈ ln) ∧
    (∃ sc, (processSFMJob db data).db.scenes data.sceneID = some sc ∧
      sc.sfm ≠ none) := by
  cases hget : GetScene db data.sceneID with
  | error e => simp [processSFMJob, hget] at hsucc
  | ok sc =>
    cases hv : sc.video with
    | none => simp [processSFMJob, hget, hv] at hsucc
    | some vid =>
      have hscid : sc.id = data.sceneID := by
        apply hwf
        revert hget
        unfold GetScene
        cases db.scenes data.sceneID with
        | none => intro h; cases h
        | some s =>
          intro h
          cases h
          rfl
      simp only [processSFMJob, hget, hv] at hsucc ⊢
      obtain ⟨h1, h2, h3⟩ :=
        sfmFinish_success _ data.sceneID _ _ l hsucc hq hmem hcount hscid
      refine ⟨h1, h2, ?_⟩
      rw [h3]
      exact ⟨_, setS_same db data.sceneID _, by simp⟩

/-- C3 witnessed at a concrete run: job 3 queued in `sfm_list`, two-frame
result message processed to success; afterwards `sfm_list` no longer
holds 3, `nerf_list` does, and the saved scene's `Sfm` is non-nil. -/
theorem processSFMJob_stage_transition_witness :
    dbW3.queues "sfm_list" = some [3] ∧
    (processSFMJob dbW3 dataW3).err = none ∧
    (∃ l', (processSFMJob dbW3 dataW3).db.queues "sfm_list" = some l' ∧
      (3 : OID) ∉ l') ∧
    (∃ ln, (processSFMJob dbW3 dataW3).db.queues "nerf_list" = some ln ∧
      (3 : OID) ∈ ln) ∧
    (∃ sc, (processSFMJob dbW3 dataW3).db.scenes 3 = some sc ∧
      sc.sfm ≠ none) := by
  have hwf : ∀ i s, dbW3.scenes i = some s → Scene.id s = i := by
    intro i s h
    simp only [dbW3] at h
    split at h
    · cases h
      rename_i hi
      rw [hi]
      rfl
    · cases h
  have main := processSFMJob_stage_transition dbW3 dataW3 [3] hwf rfl
    (by decide) (by decide) rfl
  exact ⟨rfl, rfl, main.1, main.2.1, main.2.2⟩

/-- C10: confirmed.  `processSFMJob` decodes the worker status flag but
never branches on it or persists it: its entire outcome (result, store
state and effect trace) is identical for every flag value, and for every
successfully processed message — whatever the flag — the frames were
downloaded, the scene record was saved, the job was removed from the
stage-1 queue (when present there), and the stage-2 job was published. -/
theorem processSFMJob_flag_ignored (db : DB) (data : SfmWorkerData) (f : Int) :
    processSFMJob db { data with flag := f } = processSFMJob db data ∧
    ((processSFMJob db data).err = none →
      (∀ fr ∈ data.sfm.frames,
        Event.downloaded fr.filePath ∈ (processSFMJob db data).trace) ∧
      Event.setScene data.sceneID ∈ (processSFMJob db data).trace ∧
      Event.published "nerf-in" ∈ (processSFMJob db data).trace ∧
      (∀ l, db.queues "sfm_list" = some l → data.sceneID ∈ l →
        Event.deletedQ "sfm_list" data.sceneID ∈ (processSFMJob db data).trace)) := by
  constructor
  · cases data
    rfl
  · intro hsucc
    cases hget : GetScene db data.sceneID with
    | error e => simp [processSFMJob, hget] at hsucc
    | ok sc =>
      cases hv : sc.video with
      | none => simp [processSFMJob, hget, hv] at hsucc
      | some vid =>
        simp only [processSFMJob, hget, hv] at hsucc ⊢
        obtain ⟨htr, hpub, hdel⟩ := sfmFinish_trace _ data.sceneID _ _ hsucc
        refine ⟨?_, ?_, hpub, ?_⟩
        · intro fr hfr
          exact htr _ (List.mem_append_left _ (List.mem_map_of_mem _ hfr))
        · exact htr _ (List.mem_append_right _ (by simp))
        · intro l hql hmem
          exact hdel l hql hmem

/-- C10 witnessed concretely: flag 42 and flag 7 runs coincide, the run
succeeds, and the stage-2 publish appears in its trace. -/
theorem processSFMJob_flag_ignored_witness :
    processSFMJob dbW3 { dataW3 with flag := 42 } = processSFMJob dbW3 dataW3 ∧
    (processSFMJob dbW3 dataW3).err = none ∧
    Event.published "nerf-in" ∈ (processSFMJob dbW3 dataW3).trace :=
  ⟨(processSFMJob_flag_ignored dbW3 dataW3 42).1, rfl,
   ((processSFMJob_flag_ignored dbW3 dataW3 42).2 rfl).2.2.1⟩

theorem processIters_error_of_bad (saveIterations : List Int)
    (dir t : String) (iters : List (Int × String)) (n : Nerf)
    (hbad : ∃ q ∈ iters, saveIterations.contains q.1 = false) :
    ∃ evs e, processIters saveIterations dir t iters n = (evs, .error e) := by
  induction iters generalizing n with
  | nil =>
    obtain ⟨q, hq, _⟩ := hbad
    cases hq
  | cons head rest ih =>
    obtain ⟨it, url⟩ := head
    cases hc : saveIterations.contains it with
    | false =>
      have hc' : it ∉ saveIterations := by simpa using hc
      exact ⟨[], .iterationUnwanted it, by simp [processIters, hc']⟩
    | true =>
      have hc' : it ∈ saveIterations := by simpa using hc
      obtain ⟨q, hq, hqbad⟩ := hbad
      rcases List.mem_cons.mp hq with h1 | h1
      · rw [h1] at hqbad
        rw [hc] at hqbad
        cases hqbad
      · obtain ⟨evs, e, heq⟩ :=
          ih (nerfSwitch n t it
            (joinPath [dir, "iteration_" ++ toString it, baseName url]))
            ⟨q, h1, hqbad⟩
        exact ⟨Event.downloaded url :: evs, e, by simp [processIters, hc', heq]⟩

theorem processEntries_error_of_bad (outputTypes : List String)
    (saveIterations : List Int) (saveDir : String)
    (entries : List (String × List (Int × String))) (n : Nerf)
    (hbad : ∃ p ∈ entries, outputTypes.contains p.1 = false ∨
      ∃ q ∈ p.2, saveIterations.contains q.1 = false) :
    ∃ evs e,
      processEntries outputTypes saveIterations saveDir entries n
        = (evs, .error e) := by
  induction entries generalizing n with
  | nil =>
    obtain ⟨p, hp, _⟩ := hbad
    cases hp
  | cons head rest ih =>
    obtain ⟨t, iters⟩ := head
    cases hc : outputTypes.contains t with
    | false =>
      have hc' : t ∉ outputTypes := by simpa using hc
      exact ⟨[], .outputTypeUnwanted t, by simp [processEntries, hc']⟩
    | true =>
      have hc' : t ∈ outputTypes := by simpa using hc
      obtain ⟨p, hp, hpbad⟩ := hbad
      rcases List.mem_cons.mp hp with h1 | h1
      · rcases hpbad with hbadt | hbadi
        · rw [h1] at hbadt
          rw [hc] at hbadt
          cases hbadt
        · obtain ⟨evs, e, heq⟩ :=
            processIters_error_of_bad saveIterations
              (joinPath [saveDir, t]) t iters n (by rw [h1] at hbadi; exact hbadi)
          exact ⟨evs, e, by simp [processEntries, hc', heq]⟩
      · cases hr : processIters saveIterations (joinPath [saveDir, t]) t iters n with
        | mk evs r =>
          cases r with
          | error e => exact ⟨evs, e, by simp [processEntries, hc', hr]⟩
          | ok n' =>
            obtain ⟨evs', e, heq⟩ := ih n' ⟨p, h1, hpbad⟩
            exact ⟨evs ++ evs', e, by simp [processEntries, hc', hr, heq]⟩

/-- C5: confirmed.  A stage-2 result message carrying an output type not
in the job's configured `output_types`, or a checkpoint iteration not in
its configured `save_iterations`, makes `processNERFJob` return an error
before the record update is reached: the store is left exactly as it
was. -/
theorem processNERFJob_rejects_unconfigured (db : DB) (data : NerfWorkerData)
    (sc : Scene) (cfg : TrainingConfig) (ncfg : NerfTrainingConfig)
    (hsc : db.scenes data.sceneID = some sc)
    (hcfg : sc.config = some cfg)
    (hncfg : cfg.nerfTrainingConfig = some ncfg)
    (hbad : ∃ p ∈ data.filePaths, ncfg.outputTypes.contains p.1 = false ∨
      ∃ q ∈ p.2, ncfg.saveIterations.contains q.1 = false) :
    (∃ e, (processNERFJob db data).err = some e) ∧
    (processNERFJob db data).db = db := by
  have hget : GetScene db data.sceneID = .ok sc := by
    unfold GetScene
    rw [hsc]
  obtain ⟨evs, e, heq⟩ :=
    processEntries_error_of_bad ncfg.outputTypes ncfg.saveIterations
      (joinPath ["data", "nerf", hexOf data.sceneID]) data.filePaths {} hbad
  constructor
  · exact ⟨e, by simp [processNERFJob, hget, hcfg, hncfg, heq]⟩
  · simp [processNERFJob, hget, hcfg, hncfg, heq]

/-- C5 witnessed concretely: job 2 requests only video and splat-cloud
outputs at iterations 1 and 2; a message carrying output type `model`
is rejected with an error and the store is unchanged, as is one carrying
iteration 5. -/
theorem processNERFJob_rejects_unconfigured_witness :
    dbW2.scenes 2 = some scW2 ∧
    scW2.config = some ⟨none, some ncfgW⟩ ∧
    (∃ e, (processNERFJob dbW2 msgBadType).err = some e) ∧
    (processNERFJob dbW2 msgBadType).db = dbW2 ∧
    (∃ e, (processNERFJob dbW2 msgBadIter).err = some e) ∧
    (processNERFJob dbW2 msgBadIter).db = dbW2 := by
  have m1 := processNERFJob_rejects_unconfigured dbW2 msgBadType scW2
    ⟨none, some ncfgW⟩ ncfgW rfl rfl rfl
    ⟨("model", [(1, "http://w/c.bin")]), by simp [msgBadType], Or.inl rfl⟩
  have m2 := processNERFJob_rejects_unconfigured dbW2 msgBadIter scW2
    ⟨none, some ncfgW⟩ ncfgW rfl rfl rfl
    ⟨("video", [(5, "http://w/c.bin")]), by simp [msgBadIter],
      Or.inr ⟨(5, "http://w/c.bin"), by simp, rfl⟩⟩
  exact ⟨rfl, rfl, m1.1, m1.2, m2.1, m2.2⟩

/-- C4 counterexample: job 2's first stage-2 message records the video
checkpoint at iteration 1; after the job is re-queued and a second
message carrying only iteration 2 is processed to success, the recorded
mapping holds iteration 2 but the earlier iteration-1 entry is gone —
the mapping does not grow incrementally, refuting the claim. -/
theorem processNERFJob_discards_previous_checkpoints :
    (processNERFJob dbW2 msgIter1).err = none ∧
    (∃ sc n, (processNERFJob dbW2 msgIter1).db.scenes 2 = some sc ∧
      sc.nerf = some n ∧
      mapGet (n.videoFilePathsMap.getD []) 1 =
        some "data/nerf/2/video/iteration_1/a.mp4") ∧
    (processNERFJob dbW2b msgIter2).err = none ∧
    (∃ sc n, (processNERFJob dbW2b msgIter2).db.scenes 2 = some sc ∧
      sc.nerf = some n ∧
      mapGet (n.videoFilePathsMap.getD []) 2 =
        some "data/nerf/2/video/iteration_2/b.mp4" ∧
      mapGet (n.videoFilePathsMap.getD []) 1 = none) := by
  exact ⟨rfl, ⟨_, _, rfl, rfl, rfl⟩, rfl, ⟨_, _, rfl, rfl, rfl, rfl⟩⟩

/-- C4 amended: a successfully processed stage-2 message sets the job's
render outputs to exactly the entries accumulated from that message
alone (the entry loop run from a fresh empty `Nerf`), replacing — not
preserving — whatever earlier messages had recorded. -/
theorem processNERFJob_replaces_outputs (db : DB) (data : NerfWorkerData)
    (sc : Scene) (cfg : TrainingConfig) (ncfg : NerfTrainingConfig)
    (hsc : db.scenes data.sceneID = some sc)
    (hcfg : sc.config = some cfg)
    (hncfg : cfg.nerfTrainingConfig = some ncfg)
    (hsucc : (processNERFJob db data).err = none) :
    ∃ n evs,
      processEntries ncfg.outputTypes ncfg.saveIterations
        (joinPath ["data", "nerf", hexOf data.sceneID]) data.filePaths {}
        = (evs, .ok n) ∧
      (processNERFJob db data).db.scenes data.sceneID
        = some { sc with nerf := some n } := by
  have hget : GetScene db data.sceneID = .ok sc := by
    unfold GetScene
    rw [hsc]
  cases hloop : processEntries ncfg.outputTypes ncfg.saveIterations
      (joinPath ["data", "nerf", hexOf data.sceneID]) data.filePaths {} with
  | mk evs r =>
    cases r with
    | error e => simp [processNERFJob, hget, hcfg, hncfg, hloop] at hsucc
    | ok n =>
      refine ⟨n, evs, rfl, ?_⟩
      simp only [processNERFJob, hget, hcfg, hncfg, hloop]
      rw [nerfFinish_scenes]
      unfold SetNerf
      rw [hsc, ← hcfg]
      exact setS_same db data.sceneID _

/-- C4 amended, witnessed at job 2's first checkpoint message: the saved
scene's `nerf` is exactly the fold of that message from an empty
record. -/
theorem processNERFJob_replaces_outputs_witness :
    dbW2.scenes 2 = some scW2 ∧
    (processNERFJob dbW2 msgIter1).err = none ∧
    (∃ n evs,
      processEntries ncfgW.outputTypes ncfgW.saveIterations
        (joinPath ["data", "nerf", hexOf 2]) msgIter1.filePaths {}
        = (evs, .ok n) ∧
      (processNERFJob dbW2 msgIter1).db.scenes 2
        = some { scW2 with nerf := some n }) :=
  ⟨rfl, rfl,
   processNERFJob_replaces_outputs dbW2 msgIter1 scW2
     ⟨none, some ncfgW⟩ ncfgW rfl rfl rfl rfl⟩
